import Mathlib

/-!
Verification of the celpy conformance-test integration binding
(`features/steps/integration_binding.py`): the expression-text escape
normalizer, the fixture value translator, the error classifier, the
evaluation orchestrator, and the expected-error outcome verifier.

Texts are modelled as `List Char` (for the character-level regex scan) or
`String` (for the table lookups); fallible translation returns
`Except String _` mirroring the raised `ValueError`/`KeyError`.
-/

/-! ## Escape normalizer

`expand_textproto_escapes(expr_text, quote)` iterates the regex
`\\\<quote>|.` over the text and joins the matches, replacing each
backslash-quote unit by the bare quote.  The regex alternation prefers the
two-character unit at each scan position; a `.` match passes the single
character through.  Note that Python's `.` (no DOTALL) does not match a
newline, so a newline character produces no match at all and is omitted
from the joined result.
-/

def expand_textproto_escapes : List Char → Char → List Char
  | [], _ => []
  | [c], _ => if c = '\n' then [] else [c]
  | a :: b :: rest, q =>
    if a = '\\' then
      if b = q then q :: expand_textproto_escapes rest q
      else '\\' :: expand_textproto_escapes (b :: rest) q
    else if a = '\n' then expand_textproto_escapes (b :: rest) q
    else a :: expand_textproto_escapes (b :: rest) q

/-- `true` iff the text contains a backslash immediately followed by the
quote character (a two-character escape unit somewhere in the text). -/
def hasBackslashQuote : List Char → Char → Bool
  | a :: b :: rest, q =>
    (decide (a = '\\') && decide (b = q)) || hasBackslashQuote (b :: rest) q
  | _, _ => false

/-- `true` iff the text contains backslash, backslash, quote as three
consecutive characters. -/
def hasDoubleBackslashQuote : List Char → Char → Bool
  | a :: b :: c :: rest, q =>
    (decide (a = '\\') && decide (b = '\\') && decide (c = q))
      || hasDoubleBackslashQuote (b :: c :: rest) q
  | _, _ => false

/-! ## Fixture value model and translator

`Value(value_type, value)` is a tagged scalar literal; `value` is the raw
payload as produced by the fixture tooling (an int, a string, or a bool).
`Value.cel_value` dispatches on `value_type` and applies the matching
`celpy.celtypes` constructor; an unrecognized tag raises
`ValueError(f"what is {self}?")`, modelled as `Except.error`.
-/

/-- Raw payload carried by a fixture `Value` node: the fixture tooling
supplies a Python int, str, or bool. -/
inductive Payload where
  | pint (n : Int)
  | pstr (s : String)
  | pbool (b : Bool)
deriving DecidableEq

/-- Runtime types named by `Value.type_mapping`'s `name_to_cel` table. -/
inductive CelType where
  | boolT
  | bytesT
  | doubleT
  | durationT
  | intT
  | listT
  | mapT
  | nullT
  | stringT
  | timestampT
  | uintT
  | typeT
deriving DecidableEq

/-- Modelled from the spec: the runtime double domain of the external
`celpy.celtypes.DoubleType` (an IEEE-754 float).  The two infinities are
exact; a finite value is kept symbolically as a sign bit plus the decimal
payload it was parsed from, since finite float arithmetic is outside the
modelled scope.  IEEE doubles are sign-magnitude, so unary minus flips the
sign bit exactly. -/
inductive CelDouble where
  | posInf
  | negInf
  | decimal (neg : Bool) (payload : String)
deriving DecidableEq

/-- Modelled from the spec: Python unary minus on a float flips the IEEE
sign bit; on the infinities it swaps them exactly. -/
def CelDouble.negate : CelDouble → CelDouble
  | .posInf => .negInf
  | .negInf => .posInf
  | .decimal b s => .decimal (!b) s

/-- Translated runtime values (the `celpy.celtypes` wrappers). -/
inductive CelValue where
  | intV (n : Int)
  | uintV (n : Int)
  | doubleV (d : CelDouble)
  | strV (s : String)
  | bytesV (s : String)
  | boolV (b : Bool)
  | nullV
  | typeV (t : CelType)
deriving DecidableEq

/-- Modelled from the spec: the external `celpy.celtypes.DoubleType`
constructor (`float(payload)`).  The sentinel strings parse to the
infinities; any other payload parses to an ordinary finite double, kept
symbolic. -/
def DoubleType (p : Payload) : CelDouble :=
  match p with
  | .pstr "inf" => .posInf
  | .pstr "-inf" => .negInf
  | .pstr s => .decimal false s
  | .pint n => .decimal false (toString n)
  | .pbool b => .decimal false (if b then "1" else "0")

/-- Modelled from the spec: the external `celpy.celtypes.IntType`
constructor on the canonical fixture payloads (Python ints; `bool` is an
int subclass with `True == 1`).  String coercion by the external `int()`
is outside the modelled scope. -/
def IntType : Payload → Except String CelValue
  | .pint n => .ok (.intV n)
  | .pbool b => .ok (.intV (if b then 1 else 0))
  | .pstr s => .error ("IntType payload not modelled: " ++ s)

/-- Modelled from the spec: the external `celpy.celtypes.UintType`
constructor on the canonical fixture payloads. -/
def UintType : Payload → Except String CelValue
  | .pint n => .ok (.uintV n)
  | .pbool b => .ok (.uintV (if b then 1 else 0))
  | .pstr s => .error ("UintType payload not modelled: " ++ s)

/-- Modelled from the spec: the external `celpy.celtypes.StringType`
constructor (a `str` subclass; `str(payload)`). -/
def StringType : Payload → Except String CelValue
  | .pstr s => .ok (.strV s)
  | .pint n => .ok (.strV (toString n))
  | .pbool b => .ok (.strV (if b then "True" else "False"))

/-- Modelled from the spec: the external `celpy.celtypes.BytesType`
constructor on the canonical fixture payload (a bytes literal, carried
here as its character string). -/
def BytesType : Payload → Except String CelValue
  | .pstr s => .ok (.bytesV s)
  | .pint n => .error ("BytesType payload not modelled: " ++ toString n)
  | .pbool _ => .error "BytesType payload not modelled: bool"

/-- Modelled from the spec: the external `celpy.celtypes.BoolType`
constructor on the canonical fixture payloads. -/
def BoolType : Payload → Except String CelValue
  | .pbool b => .ok (.boolV b)
  | .pint n => .ok (.boolV (decide (n ≠ 0)))
  | .pstr s => .error ("BoolType payload not modelled: " ++ s)

/-- `Value.type_mapping`'s `name_to_cel` table; a missing name raises
`KeyError`, modelled as `Except.error`. -/
def type_mapping (name : String) : Except String CelType :=
  if name = "bool" then .ok .boolT
  else if name = "bytes" then .ok .bytesT
  else if name = "double" then .ok .doubleT
  else if name = "duration" then .ok .durationT
  else if name = "int" then .ok .intT
  else if name = "list" then .ok .listT
  else if name = "map" then .ok .mapT
  else if name = "null_type" then .ok .nullT
  else if name = "string" then .ok .stringT
  else if name = "timestamp" then .ok .timestampT
  else if name = "uint" then .ok .uintT
  else if name = "type" then .ok .typeT
  else if name = "google.protobuf.Duration" then .ok .durationT
  else if name = "google.protobuf.Timestamp" then .ok .timestampT
  else .error ("KeyError: " ++ name)

/-- The `Value` NamedTuple: `value_type` tag plus raw payload. -/
structure Value where
  value_type : String
  value : Payload
deriving DecidableEq

/-- `Value.cel_value`: dispatch on `value_type` exactly as the source's
if/elif chain, with the double kind special-casing the `"inf"` and
`"-inf"` sentinel payloads (the latter built as `-DoubleType("inf")`). -/
def Value.cel_value (v : Value) : Except String CelValue :=
  if v.value_type = "int64_value" then IntType v.value
  else if v.value_type = "uint64_value" then UintType v.value
  else if v.value_type = "double_value" then
    if v.value = .pstr "inf" then .ok (.doubleV (DoubleType (.pstr "inf")))
    else if v.value = .pstr "-inf" then
      .ok (.doubleV (CelDouble.negate (DoubleType (.pstr "inf"))))
    else .ok (.doubleV (DoubleType v.value))
  else if v.value_type = "string_value" then StringType v.value
  else if v.value_type = "bytes_value" then BytesType v.value
  else if v.value_type = "bool_value" then BoolType v.value
  else if v.value_type = "null_value" then .ok .nullV
  else if v.value_type = "type" then
    match v.value with
    | .pstr s => (type_mapping s).map CelValue.typeV
    | _ => .error "type name must be a string"
  else .error ("what is " ++ v.value_type ++ "?")

/-! ## Map translation

`MapValue.cel_value` builds one Python dict from all entry groups:
`{e["key"].cel_value: e["value"].cel_value for d in self.items for e in d.key_value}`.
A Python dict insert keeps the first-stored key object and overwrites its
value on a repeated key (last write wins); translated keys are compared
with runtime equality, modelled as structural equality of the translated
values.
-/

/-- One `{key: ..., value: ...}` entry of an `Entries` group. -/
structure MapEntry where
  key : Value
  value : Value
deriving DecidableEq

/-- The `Entries` NamedTuple: entries in one group. -/
structure Entries where
  key_value : List MapEntry
deriving DecidableEq

/-- The `MapValue` NamedTuple: a list of entry groups. -/
structure MapValue where
  items : List Entries
deriving DecidableEq

/-- Modelled from the spec: one insert into a Python dict (an ordered
association list).  A repeated key keeps the stored key object and
overwrites its value in place; a new key is appended. -/
def dictInsert : List (CelValue × CelValue) → CelValue → CelValue →
    List (CelValue × CelValue)
  | [], k, v => [(k, v)]
  | (k', v') :: rest, k, v =>
    if k' = k then (k', v) :: rest else (k', v') :: dictInsert rest k v

/-- Modelled from the spec: Python dict lookup on the association list. -/
def dictLookup : List (CelValue × CelValue) → CelValue → Option CelValue
  | [], _ => none
  | (k', v') :: rest, k => if k' = k then some v' else dictLookup rest k

/-- Fold a sequence of translated `(key, value)` pairs into one dict, in
entry order, as the dict comprehension does. -/
def buildDict (ps : List (CelValue × CelValue)) : List (CelValue × CelValue) :=
  ps.foldl (fun m p => dictInsert m p.1 p.2) []

/-- The value of the last pair in `ps` whose key equals `k` (the
expected "last write wins" association). -/
def lastVal (ps : List (CelValue × CelValue)) (k : CelValue) : Option CelValue :=
  Option.map Prod.snd (List.find? (fun p => decide (p.1 = k)) ps.reverse)

/-- Translate the flattened entry sequence, key before value per entry
(the comprehension's evaluation order); the first raised translation
error propagates. -/
def translatePairs : List MapEntry → Except String (List (CelValue × CelValue))
  | [] => .ok []
  | e :: rest => do
    let k ← e.key.cel_value
    let v ← e.value.cel_value
    let ps ← translatePairs rest
    pure ((k, v) :: ps)

/-- `MapValue.cel_value`: flatten all entry groups in order, translate
each entry, and fold the pairs into one runtime map. -/
def MapValue.cel_value (mv : MapValue) : Except String (List (CelValue × CelValue)) :=
  (translatePairs (mv.items.flatMap Entries.key_value)).map buildDict

/-! ## Error classifier

`error_category(text)` checks the `ErrorCategory` member names, then the
`ERROR_ALIASES` table, then the `"undeclared reference"` structural rule;
a string matching none of them falls off the end of the Python function,
which implicitly returns `None` — modelled as `Option.none`.
-/

/-- The `ErrorCategory` enum. -/
inductive ErrorCategory where
  | divide_by_zero
  | modulus_by_zero
  | no_such_overload
  | integer_overflow
  | undeclared_reference
  | unknown_variable
deriving DecidableEq

/-- Python `str.startswith` on character lists. -/
def startsWith : List Char → List Char → Bool
  | [], _ => true
  | _ :: _, [] => false
  | p :: ps, c :: cs => decide (p = c) && startsWith ps cs

/-- `error_category`: membership test on the enum names, then the
`ERROR_ALIASES` dict, then the prefix rule, else the implicit `None`. -/
def error_category (text : String) : Option ErrorCategory :=
  if text = "divide_by_zero" then some .divide_by_zero
  else if text = "modulus_by_zero" then some .modulus_by_zero
  else if text = "no_such_overload" then some .no_such_overload
  else if text = "integer_overflow" then some .integer_overflow
  else if text = "undeclared_reference" then some .undeclared_reference
  else if text = "unknown_variable" then some .unknown_variable
  else if text = "division by zero" then some .divide_by_zero
  else if text = "divide by zero" then some .divide_by_zero
  else if text = "modulus by zero" then some .modulus_by_zero
  else if text = "no such overload" then some .no_such_overload
  else if text = "no matching overload" then some .no_such_overload
  else if text = "return error for overflow" then some .integer_overflow
  else if text = "unknown varaible" then some .unknown_variable
  else if startsWith ("undeclared reference").data text.data then
    some .undeclared_reference
  else none

/-- The classification the verifier step applies to the stored error:
`error_category(context.data['error'] or "")`, so an absent error is
coerced to the empty string before classification. -/
def classify_opt (e : Option String) : Option ErrorCategory :=
  error_category (e.getD "")

/-! ## Evaluation orchestrator and outcome verifier

`cel(context)` runs the compiled program inside
`try: ... except CELEvalError`: on success it stores the result and sets
the error slot to `None`; on a `CELEvalError` it stores the error message
and deliberately leaves the result slot unset.  Any other exception
(compile failure, translation defect) propagates uncaught and stores
nothing; the scenario bag is freshly allocated per scenario, so the
result slot is empty when `cel` runs.
-/

/-- The scenario bag fields written by `cel`: `none` in `result` means
the `'result'` key is absent; `none` in `error` means the `'error'` key
is absent or `None`. -/
structure ScenarioData where
  result : Option CelValue
  error : Option String
deriving DecidableEq

/-- Outcome of the external evaluator boundary: a returned value, or a
raised `CELEvalError` carrying `ex.args[0]`. -/
inductive EvalOutcome where
  | value (v : CelValue)
  | raised (msg : String)
deriving DecidableEq

/-- The try/except tail of `cel`, as a state update on the scenario bag
driven by the external evaluator's outcome. -/
def cel (outcome : EvalOutcome) (data : ScenarioData) : ScenarioData :=
  match outcome with
  | .value v => { data with result := some v, error := none }
  | .raised msg => { data with error := some msg }

/-- Result of the `eval_error is "{text}"` verifier step: whether its
assertion passed, and whether the mismatch diagnostic line was printed. -/
structure StepResult where
  passed : Bool
  diagnostic : Bool
deriving DecidableEq

/-- The `eval_error is "{text}"` step.  `matchMode` is
`context.config.userdata.get("match", "any")`.  Exact mode asserts
`expected_ec == actual_ec` only; any other mode prints a diagnostic on a
category mismatch and asserts that the stored error is not `None`. -/
def eval_error_step (matchMode : String) (err : Option String) (text : String) :
    StepResult :=
  let actual_ec := classify_opt err
  let expected_ec := error_category text
  if matchMode = "exact" then
    { passed := decide (expected_ec = actual_ec), diagnostic := false }
  else
    { passed := err.isSome, diagnostic := decide (expected_ec ≠ actual_ec) }

/-- A concrete two-group `MapValue` whose two entries translate to the
same key `IntType(1)` with different values. -/
def mvExample : MapValue :=
  ⟨[⟨[⟨⟨"int64_value", .pint 1⟩, ⟨"string_value", .pstr "a"⟩⟩]⟩,
    ⟨[⟨⟨"int64_value", .pint 1⟩, ⟨"string_value", .pstr "b"⟩⟩]⟩]⟩

/-- The translated pair sequence of `mvExample`. -/
def psExample : List (CelValue × CelValue) :=
  [(.intV 1, .strV "a"), (.intV 1, .strV "b")]

/-! ## Theorems -/

/-- C10: the alias table recognizes only the misspelled phrasing
`"unknown varaible"` for the unknown-variable category; the correctly
spelled `"unknown variable"` matches no member name, no alias and no
structural rule, so it is unclassified (`none`). -/
theorem alias_misspelling_only :
    error_category "unknown varaible" = some ErrorCategory.unknown_variable ∧
    error_category "unknown variable" = none :=
  ⟨rfl, rfl⟩

/-- C8: translating a double-kind `Value` with payload `"inf"` yields
positive infinity, payload `"-inf"` yields the negation of the `"inf"`
translation, and that negation is exactly negative infinity. -/
theorem double_sentinel_negation :
    Value.cel_value ⟨"double_value", .pstr "inf"⟩ = .ok (.doubleV .posInf) ∧
    Value.cel_value ⟨"double_value", .pstr "-inf"⟩ =
      .ok (.doubleV (CelDouble.negate .posInf)) ∧
    CelDouble.negate CelDouble.posInf = CelDouble.negInf :=
  ⟨rfl, rfl, rfl⟩

/-- C1 (failing input): the escape normalizer does not leave every
non-unit character unchanged — a text consisting of a single newline
contains no backslash-quote unit, yet the regex `.` fails to match the
newline and the rebuilt string drops it, so the output is empty instead
of the identity result. -/
theorem expand_drops_newline :
    expand_textproto_escapes ['\n'] '"' = [] ∧
    hasBackslashQuote ['\n'] '"' = false ∧
    expand_textproto_escapes ['\n'] '"' ≠ ['\n'] := by
  decide

/-- C2 (counterexample): the escape normalizer is not idempotent — on
backslash, backslash, quote one pass yields backslash, quote (the first
backslash is passed through by `.`, then the unit collapses), and a
second pass collapses the remaining unit again. -/
theorem expand_not_idempotent :
    expand_textproto_escapes (expand_textproto_escapes ['\\', '\\', '"'] '"') '"' ≠
      expand_textproto_escapes ['\\', '\\', '"'] '"' := by
  decide

/-- C3 (counterexample): the classifier does not give an absent message
an outcome distinct from unrecognizable text — the absent message is
coerced to `""` and classified `none`, exactly the outcome of the
unrecognized message `"bogus"`. -/
theorem classifier_absent_unclassified_same :
    classify_opt none = error_category "bogus" ∧ error_category "bogus" = none :=
  ⟨rfl, rfl⟩

/-- C3 (amended): the classifier is total — every input classifies to
exactly one of the six declared categories or to `none` (unclassified);
the absent message classifies to `none` as well, the same outcome as
unrecognized text, and absence is distinguished only by the verifier's
separate `is not None` check on the raw error. -/
theorem classify_opt_total (e : Option String) :
    (classify_opt e = none ∨ ∃ c : ErrorCategory, classify_opt e = some c) ∧
    classify_opt none = none ∧
    classify_opt none = classify_opt (some "bogus") := by
  refine ⟨?_, rfl, rfl⟩
  cases h : classify_opt e with
  | none => exact Or.inl rfl
  | some c => exact Or.inr ⟨c, rfl⟩

/-- C3 (witness): the amended totality theorem applied at the absent
message. -/
theorem classify_opt_total_witness :
    (classify_opt none = none ∨ ∃ c : ErrorCategory, classify_opt none = some c) ∧
    classify_opt none = none ∧
    classify_opt none = classify_opt (some "bogus") :=
  classify_opt_total none

/-- C4 (counterexample): with no error captured, the expected-error step
does not always fail under the exact policy — when the expected text is
itself unclassifiable, both sides classify to `none` and the exact
assertion passes. -/
theorem exact_mode_passes_without_error :
    (eval_error_step "exact" none "bogus").passed = true := rfl

/-- C4 (amended): with no error captured, the `any` policy always fails
the step, while the `exact` policy fails exactly when the expected text
classifies to a declared category — it vacuously passes when the
expected text is itself unclassified (`none`). -/
theorem eval_error_absent (text : String) :
    (eval_error_step "any" none text).passed = false ∧
    ((eval_error_step "exact" none text).passed = true ↔ error_category text = none) := by
  refine ⟨rfl, ?_⟩
  have h : (eval_error_step "exact" none text).passed =
      decide (error_category text = none) := rfl
  rw [h]
  exact decide_eq_true_iff

/-- C4 (witness): the amended theorem applied at the classifiable
expected text `"division by zero"`, where exact mode does fail. -/
theorem eval_error_absent_witness :
    (eval_error_step "any" none "division by zero").passed = false ∧
    ((eval_error_step "exact" none "division by zero").passed = true ↔
      error_category "division by zero" = none) :=
  eval_error_absent "division by zero"

/-- C5: when the scenario bag is fresh (no result stored yet), one run of
`cel`'s evaluation attempt stores exactly one outcome: a value with the
error slot cleared to `None`, or a captured error message with the result
slot still absent — never both, never neither. -/
theorem cel_single_outcome (o : EvalOutcome) (d : ScenarioData)
    (h : d.result = none) :
    (∃ v, (cel o d).result = some v ∧ (cel o d).error = none) ∨
    ((cel o d).result = none ∧ ∃ m, (cel o d).error = some m) := by
  cases o with
  | value v => exact Or.inl ⟨v, rfl, rfl⟩
  | raised m => exact Or.inr ⟨h, m, rfl⟩

/-- C5 (witness): the outcome dichotomy at a concrete raised
`CELEvalError` on a fresh scenario bag. -/
theorem cel_single_outcome_witness :
    (⟨none, none⟩ : ScenarioData).result = none ∧
    ((∃ v, (cel (.raised "division by zero") ⟨none, none⟩).result = some v ∧
        (cel (.raised "division by zero") ⟨none, none⟩).error = none) ∨
      ((cel (.raised "division by zero") ⟨none, none⟩).result = none ∧
        ∃ m, (cel (.raised "division by zero") ⟨none, none⟩).error = some m)) :=
  ⟨rfl, cel_single_outcome (.raised "division by zero") ⟨none, none⟩ rfl⟩

/-- C6: with an error captured whose category differs from the expected
text's category, the `any` policy passes the step while printing the
mismatch diagnostic, and the `exact` policy fails it. -/
theorem eval_error_mismatch_policy (msg text : String)
    (h : error_category text ≠ error_category msg) :
    (eval_error_step "any" (some msg) text).passed = true ∧
    (eval_error_step "any" (some msg) text).diagnostic = true ∧
    (eval_error_step "exact" (some msg) text).passed = false := by
  have e2 : (eval_error_step "any" (some msg) text).diagnostic =
      decide (error_category text ≠ error_category msg) := rfl
  have e3 : (eval_error_step "exact" (some msg) text).passed =
      decide (error_category text = error_category msg) := rfl
  exact ⟨rfl, by rw [e2]; exact decide_eq_true h,
    by rw [e3]; exact decide_eq_false h⟩

/-- C6 (witness): actual `"division by zero"` (divide-by-zero) against
expected `"no such overload"` (no-such-overload): `any` passes with a
diagnostic, `exact` fails. -/
theorem eval_error_mismatch_policy_witness :
    error_category "no such overload" ≠ error_category "division by zero" ∧
    ((eval_error_step "any" (some "division by zero") "no such overload").passed = true ∧
      (eval_error_step "any" (some "division by zero") "no such overload").diagnostic = true ∧
      (eval_error_step "exact" (some "division by zero") "no such overload").passed = false) :=
  ⟨by decide, eval_error_mismatch_policy "division by zero" "no such overload" (by decide)⟩

/-- C7: any string beginning with the fixed prefix
`"undeclared reference"` classifies as the undeclared-reference
category, whatever the suffix: no member name and no alias string starts
with that prefix, so the chain always reaches the structural rule. -/
theorem undeclared_reference_rule (s : String)
    (h : startsWith ("undeclared reference").data s.data = true) :
    error_category s = some ErrorCategory.undeclared_reference := by
  have ne : ∀ lit : String,
      startsWith ("undeclared reference").data lit.data = false → ¬(s = lit) := by
    intro lit hl heq
    rw [heq] at h
    rw [h] at hl
    exact Bool.noConfusion hl
  unfold error_category
  rw [if_neg (ne "divide_by_zero" (by decide)),
    if_neg (ne "modulus_by_zero" (by decide)),
    if_neg (ne "no_such_overload" (by decide)),
    if_neg (ne "integer_overflow" (by decide)),
    if_neg (ne "undeclared_reference" (by decide)),
    if_neg (ne "unknown_variable" (by decide)),
    if_neg (ne "division by zero" (by decide)),
    if_neg (ne "divide by zero" (by decide)),
    if_neg (ne "modulus by zero" (by decide)),
    if_neg (ne "no such overload" (by decide)),
    if_neg (ne "no matching overload" (by decide)),
    if_neg (ne "return error for overflow" (by decide)),
    if_neg (ne "unknown varaible" (by decide)),
    if_pos h]

/-- Dropping the head preserves absence of a backslash-quote unit. -/
theorem hasBQ_tail (a : Char) (t : List Char) (q : Char)
    (h : hasBackslashQuote (a :: t) q = false) : hasBackslashQuote t q = false := by
  cases t with
  | nil => rfl
  | cons b r =>
    simp only [hasBackslashQuote, Bool.or_eq_false_iff] at h
    exact h.2

/-- Dropping the head preserves absence of a backslash-backslash-quote
triple. -/
theorem hasBBQ_tail (a : Char) (t : List Char) (q : Char)
    (h : hasDoubleBackslashQuote (a :: t) q = false) :
    hasDoubleBackslashQuote t q = false := by
  cases t with
  | nil => rfl
  | cons b r =>
    cases r with
    | nil => rfl
    | cons c r2 =>
      simp only [hasDoubleBackslashQuote, Bool.or_eq_false_iff] at h
      exact h.2

/-- Unfolding `hasBackslashQuote` one character at a time via `head?`. -/
theorem hasBQ_cons_eq (a : Char) (t : List Char) (q : Char) :
    hasBackslashQuote (a :: t) q =
      ((decide (a = '\\') && decide (t.head? = some q)) || hasBackslashQuote t q) := by
  cases t <;> simp [hasBackslashQuote]

/-- A character that is neither a backslash nor a newline passes through
the scan and the scan continues right after it. -/
theorem expand_cons_plain (b : Char) (rest : List Char) (q : Char)
    (h1 : b ≠ '\\') (h2 : b ≠ '\n') :
    expand_textproto_escapes (b :: rest) q =
      b :: expand_textproto_escapes rest q := by
  cases rest <;> simp [expand_textproto_escapes, h1, h2]

/-- A backslash-quote unit at the front of the scan collapses to the
bare quote. -/
theorem expand_unit (rest : List Char) (q : Char) :
    expand_textproto_escapes ('\\' :: q :: rest) q =
      q :: expand_textproto_escapes rest q := by
  simp [expand_textproto_escapes]

/-- A backslash not followed by the quote passes through as a single
character and the scan continues at the next character. -/
theorem expand_escaped_other (b : Char) (rest : List Char) (q : Char)
    (h : b ≠ q) :
    expand_textproto_escapes ('\\' :: b :: rest) q =
      '\\' :: expand_textproto_escapes (b :: rest) q := by
  simp [expand_textproto_escapes, h]

/-- A newline at the front of the scan is dropped (the regex `.` does
not match it). -/
theorem expand_newline_skip (b : Char) (rest : List Char) (q : Char) :
    expand_textproto_escapes ('\n' :: b :: rest) q =
      expand_textproto_escapes (b :: rest) q := by
  simp [expand_textproto_escapes]

/-- A lone trailing backslash passes through. -/
theorem expand_single_backslash (q : Char) :
    expand_textproto_escapes ['\\'] q = ['\\'] := by
  simp [expand_textproto_escapes]

/-- The normalizer's output never contains a newline (the quote is a
quote character, not a newline). -/
theorem expand_no_newline (l : List Char) (q : Char) :
    q ≠ '\n' → '\n' ∉ expand_textproto_escapes l q := by
  induction l, q using expand_textproto_escapes.induct with
  | case1 q => intro _ h; simp [expand_textproto_escapes] at h
  | case2 q => intro _ h; simp [expand_textproto_escapes] at h
  | case3 c q hc =>
    intro _ h
    rw [show expand_textproto_escapes [c] q = [c] from by
      simp [expand_textproto_escapes, hc]] at h
    exact hc (List.mem_singleton.mp h).symm
  | case4 rest q ih =>
    intro hq h
    rw [expand_unit] at h
    rcases List.mem_cons.mp h with h | h
    · exact hq h.symm
    · exact ih hq h
  | case5 b rest q hbq ih =>
    intro hq h
    rw [expand_escaped_other b rest q hbq] at h
    rcases List.mem_cons.mp h with h | h
    · exact absurd h (by decide)
    · exact ih hq h
  | case6 b rest q _ ih =>
    intro hq h
    rw [expand_newline_skip] at h
    exact ih hq h
  | case7 a b rest q ha han ih =>
    intro hq h
    rw [expand_cons_plain a (b :: rest) q ha han] at h
    rcases List.mem_cons.mp h with h | h
    · exact han h.symm
    · exact ih hq h

/-- A newline-free text with no backslash-quote unit is a fixed point of
the normalizer (the identity case of the scan). -/
theorem expand_fixed_point (l : List Char) (q : Char) :
    q ≠ '\\' → q ≠ '\n' → '\n' ∉ l → hasBackslashQuote l q = false →
    expand_textproto_escapes l q = l := by
  induction l, q using expand_textproto_escapes.induct with
  | case1 q => intros; rfl
  | case2 q =>
    intro _ _ h1 _
    simp at h1
  | case3 c q hc =>
    intros
    simp [expand_textproto_escapes, hc]
  | case4 rest q ih =>
    intro hb hn h1 h2
    simp [hasBackslashQuote] at h2
  | case5 b rest q hbq ih =>
    intro hb hn h1 h2
    have h1' : '\n' ∉ b :: rest := fun hh => h1 (List.mem_cons_of_mem _ hh)
    rw [expand_escaped_other b rest q hbq,
      ih hb hn h1' (hasBQ_tail _ _ _ h2)]
  | case6 b rest q _ ih =>
    intro _ _ h1 _
    exact absurd (List.mem_cons_self _ _) h1
  | case7 a b rest q ha han ih =>
    intro hb hn h1 h2
    have h1' : '\n' ∉ b :: rest := fun hh => h1 (List.mem_cons_of_mem _ hh)
    rw [expand_cons_plain a (b :: rest) q ha han,
      ih hb hn h1' (hasBQ_tail _ _ _ h2)]

/-- On a newline-free text with no backslash-backslash-quote triple, the
normalizer's output contains no backslash-quote unit. -/
theorem expand_no_bq (l : List Char) (q : Char) :
    q ≠ '\\' → q ≠ '\n' → '\n' ∉ l → hasDoubleBackslashQuote l q = false →
    hasBackslashQuote (expand_textproto_escapes l q) q = false := by
  induction l, q using expand_textproto_escapes.induct with
  | case1 q => intros; rfl
  | case2 q =>
    intros
    rw [show expand_textproto_escapes ['\n'] q = [] from by
      simp [expand_textproto_escapes]]
    rfl
  | case3 c q hc =>
    intros
    rw [show expand_textproto_escapes [c] q = [c] from by
      simp [expand_textproto_escapes, hc]]
    rfl
  | case4 rest q ih =>
    intro hb hn h1 h2
    have h1' : '\n' ∉ rest := fun hh =>
      h1 (List.mem_cons_of_mem _ (List.mem_cons_of_mem _ hh))
    have htail : hasBackslashQuote (expand_textproto_escapes rest q) q = false :=
      ih hb hn h1' (hasBBQ_tail _ _ _ (hasBBQ_tail _ _ _ h2))
    rw [expand_unit, hasBQ_cons_eq]
    simp [decide_eq_false hb, htail]
  | case5 b rest q hbq ih =>
    intro hb hn h1 h2
    have h1' : '\n' ∉ b :: rest := fun hh => h1 (List.mem_cons_of_mem _ hh)
    have htail : hasBackslashQuote (expand_textproto_escapes (b :: rest) q) q
        = false := ih hb hn h1' (hasBBQ_tail _ _ _ h2)
    have hhead : ¬((expand_textproto_escapes (b :: rest) q).head? = some q) := by
      by_cases hbb : b = '\\'
      · subst hbb
        cases rest with
        | nil =>
          rw [expand_single_backslash]
          exact fun hh => hb (Option.some.inj hh).symm
        | cons e r2 =>
          by_cases heq : e = q
          · subst heq
            simp [hasDoubleBackslashQuote] at h2
          · rw [expand_escaped_other e r2 q heq]
            exact fun hh => hb (Option.some.inj hh).symm
      · have hbn : b ≠ '\n' := fun hh => h1' (by rw [hh]; exact List.mem_cons_self _ _)
        rw [expand_cons_plain b rest q hbb hbn]
        exact fun hh => hbq (Option.some.inj hh)
    rw [expand_escaped_other b rest q hbq, hasBQ_cons_eq]
    simp [decide_eq_false hhead, htail]
  | case6 b rest q _ ih =>
    intro _ _ h1 _
    exact absurd (List.mem_cons_self _ _) h1
  | case7 a b rest q ha han ih =>
    intro hb hn h1 h2
    have h1' : '\n' ∉ b :: rest := fun hh => h1 (List.mem_cons_of_mem _ hh)
    have htail : hasBackslashQuote (expand_textproto_escapes (b :: rest) q) q
        = false := ih hb hn h1' (hasBBQ_tail _ _ _ h2)
    rw [expand_cons_plain a (b :: rest) q ha han, hasBQ_cons_eq]
    simp [decide_eq_false ha, htail]

/-- C2 (amended): the escape normalizer is idempotent on every text that
contains no newline and no backslash-backslash-quote triple (with the
quote one of the two quote characters the source passes).  In general a
backslash-backslash-quote substring loses one character per pass, and a
newline before an escaped quote is dropped by the first pass, so the
unrestricted idempotence claim fails. -/
theorem expand_idempotent (t : List Char) (q : Char)
    (hq : q = '"' ∨ q = '\'') (h1 : '\n' ∉ t)
    (h2 : hasDoubleBackslashQuote t q = false) :
    expand_textproto_escapes (expand_textproto_escapes t q) q =
      expand_textproto_escapes t q := by
  have hb : q ≠ '\\' := by
    rcases hq with h | h <;> (subst h; decide)
  have hn : q ≠ '\n' := by
    rcases hq with h | h <;> (subst h; decide)
  exact expand_fixed_point _ q hb hn (expand_no_newline t q hn)
    (expand_no_bq t q hb hn h1 h2)

/-- C2 (witness): idempotence at the concrete text `a\"b` with the
double quote. -/
theorem expand_idempotent_witness :
    (('"' : Char) = '"' ∨ ('"' : Char) = '\'') ∧
    '\n' ∉ ['a', '\\', '"', 'b'] ∧
    hasDoubleBackslashQuote ['a', '\\', '"', 'b'] '"' = false ∧
    expand_textproto_escapes (expand_textproto_escapes ['a', '\\', '"', 'b'] '"') '"' =
      expand_textproto_escapes ['a', '\\', '"', 'b'] '"' :=
  ⟨Or.inl rfl, by decide, by decide,
    expand_idempotent ['a', '\\', '"', 'b'] '"' (Or.inl rfl) (by decide) (by decide)⟩

/-- Lookup after a dict insert: the inserted key now maps to the new
value; every other key is untouched. -/
theorem dictLookup_dictInsert (m : List (CelValue × CelValue)) (k v k' : CelValue) :
    dictLookup (dictInsert m k v) k' = if k = k' then some v else dictLookup m k' := by
  induction m with
  | nil =>
    by_cases hk : k = k' <;> simp [dictInsert, dictLookup, hk]
  | cons p rest ih =>
    obtain ⟨a, b⟩ := p
    by_cases hak : a = k
    · subst hak
      by_cases hk : a = k' <;> simp [dictInsert, dictLookup, hk]
    · by_cases hak' : a = k'
      · subst hak'
        have hk : ¬(k = a) := fun hh => hak hh.symm
        simp [dictInsert, dictLookup, hak, hk]
      · simp [dictInsert, dictLookup, hak, hak', ih]

/-- Folding one more pair into the dict is one insert at the end. -/
theorem buildDict_snoc (ps : List (CelValue × CelValue)) (p : CelValue × CelValue) :
    buildDict (ps ++ [p]) = dictInsert (buildDict ps) p.1 p.2 := by
  simp [buildDict, List.foldl_append]

/-- The dict built from a pair sequence realizes last-write-wins: looking
up any key gives the value of the last pair carrying that key. -/
theorem dictLookup_buildDict (ps : List (CelValue × CelValue)) (k : CelValue) :
    dictLookup (buildDict ps) k = lastVal ps k := by
  induction ps using List.reverseRecOn with
  | nil => rfl
  | append_singleton ps p ih =>
    rw [buildDict_snoc, dictLookup_dictInsert, lastVal, List.reverse_append]
    by_cases hpk : p.1 = k
    · simp [List.find?, hpk]
    · have hkp : ¬(k = p.1) := fun hh => hpk hh.symm
      rw [ih] at *
      simp [List.find?, hpk, hkp, lastVal]

/-- C9: map translation folds all entry groups into one runtime map with
last-write-wins and no error on key collisions: whenever every entry of a
`MapValue` translates (to the pair sequence `ps`), the translation
succeeds with the folded dict, and looking up any key in that dict gives
the value of the last entry whose translated key equals it. -/
theorem mapvalue_last_write_wins (mv : MapValue) (ps : List (CelValue × CelValue))
    (h : translatePairs (mv.items.flatMap Entries.key_value) = Except.ok ps)
    (k : CelValue) :
    MapValue.cel_value mv = Except.ok (buildDict ps) ∧
    dictLookup (buildDict ps) k = lastVal ps k := by
  constructor
  · unfold MapValue.cel_value
    rw [h]
    rfl
  · exact dictLookup_buildDict ps k

/-- C9 (witness): two entry groups both binding key `IntType(1)`; the
translation succeeds and the collision resolves to the second group's
value `"b"`. -/
theorem mapvalue_last_write_wins_witness :
    translatePairs (mvExample.items.flatMap Entries.key_value) = Except.ok psExample ∧
    (MapValue.cel_value mvExample = Except.ok (buildDict psExample) ∧
      dictLookup (buildDict psExample) (.intV 1) = lastVal psExample (.intV 1)) ∧
    dictLookup (buildDict psExample) (.intV 1) = some (.strV "b") :=
  ⟨rfl, mapvalue_last_write_wins mvExample psExample rfl (.intV 1), rfl⟩

/-- C7 (witness): the structural rule applied at
`"undeclared reference to x (in container y)"`. -/
theorem undeclared_reference_rule_witness :
    startsWith ("undeclared reference").data
      ("undeclared reference to x (in container y)").data = true ∧
    error_category "undeclared reference to x (in container y)" =
      some ErrorCategory.undeclared_reference :=
  ⟨by decide, undeclared_reference_rule "undeclared reference to x (in container y)"
    (by decide)⟩
